import Mathlib

/-
Verification development for the Game of Life simulator (src/GameOfLife.js).

The engine is shallowly embedded: grids are `List (List Nat)` with live = 1 and
dead = 0, the rule sets are Bool-valued functions exactly as in the source, and
the imperative loops of the source become folds/maps over index lists.  JavaScript
numbers only ever hold small non-negative integers here, so `Nat`/`Int` model them
exactly; the JS `%` operator is applied in the source only to non-negative
dividends, where it coincides with mathematical `mod`.
-/

namespace GameOfLife

/-- `generateEmptyGrid` from the source: `Array(rows).fill().map(() => Array(cols).fill(0))`. -/
def generateEmptyGrid (rows cols : Nat) : List (List Nat) :=
  List.replicate rows (List.replicate cols 0)

/-- The `patterns.glider` offset list from the source. -/
def patterns_glider : List (Nat × Nat) := [(0, 1), (1, 2), (2, 0), (2, 1), (2, 2)]

/-- The `patterns.blinker` offset list from the source. -/
def patterns_blinker : List (Nat × Nat) := [(0, 1), (1, 1), (2, 1)]

/-- The `patterns.toad` offset list from the source. -/
def patterns_toad : List (Nat × Nat) := [(1, 1), (1, 2), (1, 3), (2, 0), (2, 1), (2, 2)]

/-- `simulationModes.conway` from the source:
`(neighbors, cell) => neighbors === 3 || (cell === 1 && neighbors === 2)`. -/
def conway (neighbors cell : Nat) : Bool :=
  neighbors == 3 || (cell == 1 && neighbors == 2)

/-- `simulationModes.highlife` from the source:
`neighbors === 3 || (cell === 1 && neighbors === 2) || (cell === 0 && neighbors === 6)`. -/
def highlife (neighbors cell : Nat) : Bool :=
  neighbors == 3 || (cell == 1 && neighbors == 2) || (cell == 0 && neighbors == 6)

/-- `simulationModes.dayAndNight` from the source:
`[3,6,7,8].includes(neighbors) || (cell === 1 && [3,4,6,7,8].includes(neighbors))`. -/
def dayAndNight (neighbors cell : Nat) : Bool :=
  [3, 6, 7, 8].contains neighbors || (cell == 1 && [3, 4, 6, 7, 8].contains neighbors)

/-- The `operations` neighbor-offset list from the source, in source order. -/
def operations : List (Int × Int) :=
  [(0, 1), (0, -1), (1, -1), (-1, 1), (1, 1), (-1, -1), (1, 0), (-1, 0)]

/-- The wrapping computation `(i + x + n) % n` from the source (`runSimulation` and
`handleCellClick`).  At every call site in the source the dividend is non-negative,
where JS `%` agrees with `Nat` mod after `Int.toNat`. -/
def wrapIdx (i : Nat) (d : Int) (n : Nat) : Nat :=
  ((i : Int) + d + (n : Int)).toNat % n

/-- Grid cell read `g[i][j]` (used only at in-bounds indices). -/
def getCell (g : List (List Nat)) (i j : Nat) : Nat :=
  (g.getD i []).getD j 0

/-- Grid cell write `g[i][j] = v` (used only at in-bounds indices). -/
def setCell (g : List (List Nat)) (i j v : Nat) : List (List Nat) :=
  g.set i ((g.getD i []).set j v)

/-- `neighbors` accumulation from `runSimulation`: the sum over the 8 `operations`
offsets of the cell of `g` at the wrapped coordinates. -/
def neighborCount (g : List (List Nat)) (rows cols i j : Nat) : Nat :=
  (operations.map (fun p => getCell g (wrapIdx i p.1 rows) (wrapIdx j p.2 cols))).sum

/-- C5: each named rule set equals its defining formula for every neighborCount in
[0,8] and cell in {0,1}; in particular conway(2,1)=1, conway(3,0)=1, conway(4,1)=0
and conway(0,0)=0. -/
theorem ruleSet_formulas (n c : Nat) (hn : n ≤ 8) (hc : c ≤ 1) :
    ((conway n c = true ↔ (n = 3 ∨ (c = 1 ∧ n = 2))) ∧
     (highlife n c = true ↔ (conway n c = true ∨ (c = 0 ∧ n = 6))) ∧
     (dayAndNight n c = true ↔
       ((n = 3 ∨ n = 6 ∨ n = 7 ∨ n = 8) ∨
        (c = 1 ∧ (n = 3 ∨ n = 4 ∨ n = 6 ∨ n = 7 ∨ n = 8))))) ∧
    (conway 2 1 = true ∧ conway 3 0 = true ∧ conway 4 1 = false ∧ conway 0 0 = false) := by
  constructor
  · interval_cases n <;> interval_cases c <;> decide
  · decide

theorem ruleSet_formulas_witness :
    (2 : Nat) ≤ 8 ∧ (1 : Nat) ≤ 1 ∧
      (conway 2 1 = true ↔ ((2 : Nat) = 3 ∨ ((1 : Nat) = 1 ∧ (2 : Nat) = 2))) :=
  ⟨by decide, by decide, (ruleSet_formulas 2 1 (by decide) (by decide)).1.1⟩

/-- C2 counterexample: neighborCount 4 is outside the documented dayAndNight extra
set {3,6,7,8}, yet dayAndNight(4,1)=1 while conway(4,1)=0, so the rule sets do not
agree there. -/
theorem dayAndNight_conway_disagree_at_four :
    (4 : Nat) ∉ ([3, 6, 7, 8] : List Nat) ∧ dayAndNight 4 1 = true ∧ conway 4 1 = false := by
  decide

/-- C2 (amended): for every neighborCount in [0,8] and cell in {0,1}, highlife
agrees with conway whenever neighborCount ≠ 6, and dayAndNight (together with
highlife, hence all three rule sets) agrees with conway whenever neighborCount is
outside {2,3,4,6,7,8}. -/
theorem ruleSets_agree_outside_extended (n c : Nat) (hn : n ≤ 8) (hc : c ≤ 1) :
    (n ≠ 6 → highlife n c = conway n c) ∧
    (n ∉ ([2, 3, 4, 6, 7, 8] : List Nat) →
      dayAndNight n c = conway n c ∧ highlife n c = conway n c) := by
  interval_cases n <;> interval_cases c <;> decide

theorem ruleSets_agree_outside_extended_witness :
    ((5 : Nat) ≤ 8 ∧ (1 : Nat) ≤ 1) ∧ ((5 : Nat) ≠ 6 → highlife 5 1 = conway 5 1) :=
  ⟨⟨by decide, by decide⟩, (ruleSets_agree_outside_extended 5 1 (by decide) (by decide)).1⟩

/-- C4: for grids with at least one row and one column, the toroidal wrapping
formula keeps every neighbor index of every valid cell in bounds, for all offsets
in {-1,0,1}, so the step performs no out-of-bounds access. -/
theorem wrap_in_bounds (rows cols i j : Nat) (dx dy : Int)
    (hrows : 1 ≤ rows) (hcols : 1 ≤ cols) (hi : i < rows) (hj : j < cols)
    (hdx : dx = -1 ∨ dx = 0 ∨ dx = 1) (hdy : dy = -1 ∨ dy = 0 ∨ dy = 1) :
    wrapIdx i dx rows < rows ∧ wrapIdx j dy cols < cols :=
  ⟨Nat.mod_lt _ (by omega), Nat.mod_lt _ (by omega)⟩

theorem wrap_in_bounds_witness :
    1 ≤ 10 ∧ 1 ≤ 10 ∧ 0 < 10 ∧ 0 < 10 ∧ wrapIdx 0 (-1) 10 < 10 ∧ wrapIdx 0 (-1) 10 = 9 :=
  ⟨by decide, by decide, by decide, by decide,
   (wrap_in_bounds 10 10 0 0 (-1) (-1) (by decide) (by decide) (by decide) (by decide)
     (Or.inl rfl) (Or.inl rfl)).1,
   by decide⟩

/-- The component state owned by the controller: the `useState` hooks of the source
that the engine operates on (`numRows`, `numCols`, `grid`, `running`, `generations`,
`population`). -/
structure GameState where
  numRows : Nat
  numCols : Nat
  grid : List (List Nat)
  running : Bool
  generations : Nat
  population : List Nat
deriving Repr, DecidableEq

/-- The initial state of the component: 50×50 empty grid, not running,
generation 0, empty population history. -/
def initialState : GameState :=
  { numRows := 50
    numCols := 50
    grid := generateEmptyGrid 50 50
    running := false
    generations := 0
    population := [] }

/-- `handleSizeChange(rowChange, colChange)` from the source:
`newRows = Math.max(10, Math.min(100, numRows + rowChange))` (likewise columns),
then the grid is replaced by a fresh empty grid of the new size, the generation
counter is reset to 0 and the population history is cleared. -/
def handleSizeChange (s : GameState) (rowChange colChange : Int) : GameState :=
  let newRows := (max 10 (min 100 ((s.numRows : Int) + rowChange))).toNat
  let newCols := (max 10 (min 100 ((s.numCols : Int) + colChange))).toNat
  { s with
    numRows := newRows
    numCols := newCols
    grid := generateEmptyGrid newRows newCols
    generations := 0
    population := [] }

/-- C8: resize clamps each new dimension to [10,100] and always produces an
all-empty grid with generation 0 and empty History; from a 50×50 state,
resize(+5,+5) then resize(-5,-5) yields the 50×50 all-empty state. -/
theorem handleSizeChange_spec (s : GameState) (dr dc : Int) :
    (10 ≤ (handleSizeChange s dr dc).numRows ∧ (handleSizeChange s dr dc).numRows ≤ 100 ∧
     10 ≤ (handleSizeChange s dr dc).numCols ∧ (handleSizeChange s dr dc).numCols ≤ 100) ∧
    (handleSizeChange s dr dc).grid =
      generateEmptyGrid (handleSizeChange s dr dc).numRows (handleSizeChange s dr dc).numCols ∧
    (handleSizeChange s dr dc).generations = 0 ∧
    (handleSizeChange s dr dc).population = [] ∧
    (s.numRows = 50 → s.numCols = 50 →
      handleSizeChange (handleSizeChange s 5 5) (-5) (-5) =
        { s with
          numRows := 50
          numCols := 50
          grid := generateEmptyGrid 50 50
          generations := 0
          population := [] }) := by
  refine ⟨?_, rfl, rfl, rfl, ?_⟩
  · simp only [handleSizeChange]
    omega
  · intro h1 h2
    simp only [handleSizeChange, h1, h2]
    norm_num
    exact ⟨rfl, rfl⟩

theorem handleSizeChange_spec_witness :
    initialState.numRows = 50 ∧ initialState.numCols = 50 ∧
    handleSizeChange (handleSizeChange initialState 5 5) (-5) (-5) =
      { initialState with
        numRows := 50
        numCols := 50
        grid := generateEmptyGrid 50 50
        generations := 0
        population := [] } :=
  ⟨rfl, rfl, (handleSizeChange_spec initialState 5 5).2.2.2.2 rfl rfl⟩

/-- The persisted payload parsed in `handleLoad`: the record saved by `handleSave`
(`{grid, generations, numRows, numCols}`), with the grid list present but possibly
malformed (non-rectangular or with out-of-range values). -/
structure Payload where
  grid : List (List Nat)
  generations : Nat
  numRows : Nat
  numCols : Nat
deriving Repr, DecidableEq

/-- `handleLoad` from the source: after `JSON.parse` it unconditionally applies
all four fields of the payload (`setGrid`, `setGenerations`, `setNumRows`,
`setNumCols`); no validation is performed and the population history is not
touched. -/
def handleLoad (s : GameState) (p : Payload) : GameState :=
  { s with
    grid := p.grid
    generations := p.generations
    numRows := p.numRows
    numCols := p.numCols }

/-- Modelled from the spec (§6): a payload is valid iff its grid is rectangular
with `numRows` rows of `numCols` entries each and contains only 0/1 values.  The
source contains no such validator; this definition exists only to state which
payloads the spec requires the load to reject. -/
def specValidPayload (p : Payload) : Prop :=
  p.grid.length = p.numRows ∧ (∀ row ∈ p.grid, row.length = p.numCols) ∧
    (∀ row ∈ p.grid, ∀ v ∈ row, v = 0 ∨ v = 1)

/-- A state with a 10×10 grid and a non-trivial population history. -/
def loadedState : GameState :=
  { numRows := 10
    numCols := 10
    grid := generateEmptyGrid 10 10
    running := false
    generations := 3
    population := [5, 4] }

/-- An invalid payload: its grid `[[0],[0,1]]` is not rectangular with 2 rows of
2 entries each (the first row has length 1). -/
def badPayload : Payload :=
  { grid := [[0], [0, 1]], generations := 7, numRows := 2, numCols := 2 }

/-- A well-formed payload (10×10 all-zero grid with matching dimensions). -/
def goodPayload : Payload :=
  { grid := generateEmptyGrid 10 10, generations := 0, numRows := 10, numCols := 10 }

instance (p : Payload) : Decidable (specValidPayload p) := by
  unfold specValidPayload
  infer_instance

/-- C1 (code bug): `handleLoad` performs no validation at all.  An invalid
payload (non-rectangular grid) is applied wholesale — the grid is replaced by the
jagged array instead of the load being rejected with the state left unchanged —
and even for a well-formed payload the population History is not cleared. -/
theorem handleLoad_applies_invalid_payload :
    ¬ specValidPayload badPayload ∧
    (handleLoad loadedState badPayload).grid = [[0], [0, 1]] ∧
    (handleLoad loadedState badPayload).grid ≠ loadedState.grid ∧
    (handleLoad loadedState badPayload).generations = 7 ∧
    specValidPayload goodPayload ∧
    (handleLoad loadedState goodPayload).population = [5, 4] := by
  decide

/-- The History update from `runSimulation`:
`setPopulation(pop => [...pop.slice(-99), newPopulation])`.
`slice(-99)` keeps the (at most) 99 most recent entries. -/
def record (pop : List Nat) (n : Nat) : List Nat :=
  pop.drop (pop.length - 99) ++ [n]

/-- Recording one population count per tick, starting from the initial empty
history. -/
def runHistory (vals : List Nat) : List Nat :=
  vals.foldl record []

lemma runHistory_eq_drop (vals : List Nat) :
    runHistory vals = vals.drop (vals.length - 100) := by
  induction vals using List.reverseRecOn with
  | nil => rfl
  | append_singleton vs v ih =>
      show List.foldl record [] (vs ++ [v]) = _
      rw [List.foldl_append]
      show record (List.foldl record [] vs) v = _
      rw [show List.foldl record [] vs = runHistory vs from rfl, ih, record,
        List.length_drop, List.drop_drop]
      have h1 : vs.length - 100 + (vs.length - (vs.length - 100) - 99)
          = (vs ++ [v]).length - 100 := by
        simp only [List.length_append, List.length_cons, List.length_nil]
        omega
      rw [h1, List.drop_append_of_le_length (by
        simp only [List.length_append, List.length_cons, List.length_nil]
        omega)]

/-- C7: the History never exceeds 100 samples; `record` appends at the tail
(keeping the whole log while it has at most 99 entries, and dropping from the
head once it would exceed 100); after 150 ticks the retained sequence is exactly
the last 100 recorded values in chronological order. -/
theorem history_bounded (vals pop : List Nat) (n : Nat) :
    (runHistory vals).length ≤ 100 ∧
    (pop.length ≤ 99 → record pop n = pop ++ [n]) ∧
    (100 ≤ pop.length → record pop n = pop.drop (pop.length - 99) ++ [n]) ∧
    (vals.length = 150 → runHistory vals = vals.drop 50) := by
  refine ⟨?_, ?_, fun _ => rfl, ?_⟩
  · rw [runHistory_eq_drop, List.length_drop]
    omega
  · intro h
    rw [record, show pop.length - 99 = 0 by omega, List.drop_zero]
  · intro h
    rw [runHistory_eq_drop, h]

theorem history_bounded_witness :
    (List.range 150).length = 150 ∧
    runHistory (List.range 150) = (List.range 150).drop 50 :=
  ⟨by simp, (history_bounded (List.range 150) [] 0).2.2.2 (by simp)⟩

/-- A grid is rectangular with `r` rows of `c` entries each (spec §3 invariant). -/
def rect (g : List (List Nat)) (r c : Nat) : Prop :=
  g.length = r ∧ ∀ row ∈ g, row.length = c

lemma getD_eq_getElem {α : Type} (l : List α) (n : Nat) (d : α) (h : n < l.length) :
    l.getD n d = l[n] := by
  rw [List.getD_eq_getElem?_getD, List.getElem?_eq_getElem h]
  rfl

lemma getD_set_self {α : Type} (l : List α) (j : Nat) (v d : α) (h : j < l.length) :
    (l.set j v).getD j d = v := by
  rw [getD_eq_getElem _ _ _ (by simpa using h)]
  simp

lemma getD_set_ne {α : Type} (l : List α) (i j : Nat) (v d : α) (h : i ≠ j) :
    (l.set i v).getD j d = l.getD j d := by
  rw [List.getD_eq_getElem?_getD, List.getD_eq_getElem?_getD, List.getElem?_set_ne h]

lemma rect_setCell (g : List (List Nat)) (r c i j v : Nat) (hg : rect g r c)
    (hi : i < r) : rect (setCell g i j v) r c := by
  obtain ⟨h1, h2⟩ := hg
  refine ⟨by simp [setCell, h1], ?_⟩
  intro row hrow
  rcases List.mem_or_eq_of_mem_set hrow with h | h
  · exact h2 row h
  · subst h
    rw [List.length_set, getD_eq_getElem _ _ _ (by omega)]
    exact h2 _ (List.getElem_mem _)

lemma getCell_setCell (g : List (List Nat)) (r c i j v : Nat) (hg : rect g r c)
    (hi : i < r) (hj : j < c) (a b : Nat) :
    getCell (setCell g i j v) a b = if a = i ∧ b = j then v else getCell g a b := by
  obtain ⟨h1, h2⟩ := hg
  have hrowlen : (g.getD i []).length = c := by
    rw [getD_eq_getElem _ _ _ (by omega)]
    exact h2 _ (List.getElem_mem _)
  by_cases hai : a = i
  · subst hai
    rw [getCell, setCell, getD_set_self _ _ _ _ (by omega)]
    by_cases hbj : b = j
    · subst hbj
      rw [if_pos ⟨rfl, rfl⟩]
      exact getD_set_self _ _ _ _ (by omega)
    · rw [if_neg (by tauto), getCell, getD_set_ne _ _ _ _ _ (fun hh => hbj hh.symm)]
  · rw [if_neg (by tauto), getCell, getCell, setCell,
      getD_set_ne _ _ _ _ _ (fun hh => hai hh.symm)]

/-- Writing value `f p` into cell position `p`, for each position in `ps` in turn. -/
def writeCells (f : Nat × Nat → Nat) (g : List (List Nat)) (ps : List (Nat × Nat)) :
    List (List Nat) :=
  ps.foldl (fun gg p => setCell gg p.1 p.2 (f p)) g

lemma rect_writeCells (f : Nat × Nat → Nat) (ps : List (Nat × Nat))
    (g : List (List Nat)) (r c : Nat) (hg : rect g r c)
    (hps : ∀ p ∈ ps, p.1 < r ∧ p.2 < c) : rect (writeCells f g ps) r c := by
  induction ps generalizing g with
  | nil => exact hg
  | cons p ps ih =>
      exact ih _ (rect_setCell _ _ _ _ _ _ hg (hps p (by simp)).1)
        (fun q hq => hps q (List.mem_cons_of_mem _ hq))

lemma getCell_writeCells (f : Nat × Nat → Nat) (ps : List (Nat × Nat))
    (g : List (List Nat)) (r c : Nat) (hg : rect g r c)
    (hps : ∀ p ∈ ps, p.1 < r ∧ p.2 < c) (a b : Nat) :
    getCell (writeCells f g ps) a b
      = if (a, b) ∈ ps then f (a, b) else getCell g a b := by
  induction ps generalizing g with
  | nil => simp [writeCells]
  | cons p ps ih =>
      obtain ⟨p1, p2⟩ := p
      show getCell (writeCells f (setCell g p1 p2 (f (p1, p2))) ps) a b = _
      rw [ih _ (rect_setCell _ _ _ _ _ _ hg (hps (p1, p2) (by simp)).1)
        (fun q hq => hps q (List.mem_cons_of_mem _ hq))]
      by_cases hmem : (a, b) ∈ ps
      · rw [if_pos hmem, if_pos (by simp [hmem])]
      · rw [if_neg hmem,
          getCell_setCell _ _ _ _ _ _ hg (hps (p1, p2) (by simp)).1 (hps (p1, p2) (by simp)).2]
        by_cases he : a = p1 ∧ b = p2
        · obtain ⟨ha, hb⟩ := he
          subst ha
          subst hb
          rw [if_pos ⟨rfl, rfl⟩, if_pos (by simp)]
        · rw [if_neg he, if_neg ?_]
          intro hc
          rcases List.mem_cons.1 hc with hc | hc
          · simp only [Prod.mk.injEq] at hc
            exact he hc
          · exact hmem hc

lemma grid_eq_of_getCell (g h : List (List Nat)) (r c : Nat)
    (hg : rect g r c) (hh : rect h r c)
    (heq : ∀ a, a < r → ∀ b, b < c → getCell g a b = getCell h a b) : g = h := by
  obtain ⟨hg1, hg2⟩ := hg
  obtain ⟨hh1, hh2⟩ := hh
  apply List.ext_getElem (by omega)
  intro i hi1 hi2
  have hgl : (g[i]).length = c := hg2 _ (List.getElem_mem _)
  have hhl : (h[i]).length = c := hh2 _ (List.getElem_mem _)
  apply List.ext_getElem (by omega)
  intro j hj1 hj2
  have hc := heq i (by omega) j (by omega)
  rw [getCell, getCell, getD_eq_getElem _ _ _ hi1, getD_eq_getElem _ _ _ hi2,
    getD_eq_getElem _ _ _ hj1, getD_eq_getElem _ _ _ hj2] at hc
  exact hc

/-- The row-major list of all cell positions `(i, j)` with `i < rows`, `j < cols`,
as traversed by the nested `for` loops of `runSimulation`. -/
def stepPositions (rows cols : Nat) : List (Nat × Nat) :=
  (List.range rows).flatMap (fun i => (List.range cols).map (fun j => (i, j)))

lemma mem_stepPositions (rows cols : Nat) (p : Nat × Nat) :
    p ∈ stepPositions rows cols ↔ p.1 < rows ∧ p.2 < cols := by
  obtain ⟨a, b⟩ := p
  simp only [stepPositions, List.mem_flatMap, List.mem_map, List.mem_range, Prod.mk.injEq]
  constructor
  · rintro ⟨i, hi, j, hj, rfl, rfl⟩
    exact ⟨hi, hj⟩
  · rintro ⟨ha, hb⟩
    exact ⟨a, ha, b, hb, rfl, rfl⟩

/-- The value written into cell `p` by one pass of `runSimulation`:
`simulationModes[simulationMode](neighbors, g[i][j]) ? 1 : 0`, with the neighbor
count read from the pre-step snapshot `g`. -/
def newValue (rule : Nat → Nat → Bool) (rows cols : Nat) (g : List (List Nat))
    (p : Nat × Nat) : Nat :=
  if rule (neighborCount g rows cols p.1 p.2) (getCell g p.1 p.2) then 1 else 0

/-- One step of `runSimulation` (lines 63–83 of the source): starting from a copy
of the current grid `g` (`g.map(arr => [...arr])`, the identity on immutable
lists) and population 0, every cell position is overwritten with `newValue`
(computed from the snapshot `g` only) while the written values are accumulated
into the new population count. -/
def runSimulationStep (rule : Nat → Nat → Bool) (rows cols : Nat)
    (g : List (List Nat)) : List (List Nat) × Nat :=
  (stepPositions rows cols).foldl
    (fun acc p =>
      (setCell acc.1 p.1 p.2 (newValue rule rows cols g p), acc.2 + newValue rule rows cols g p))
    (g, 0)

lemma foldl_write_pop (f : Nat × Nat → Nat) (ps : List (Nat × Nat))
    (g : List (List Nat)) (n : Nat) :
    ps.foldl (fun acc p => (setCell acc.1 p.1 p.2 (f p), acc.2 + f p)) (g, n)
      = (writeCells f g ps, n + (ps.map f).sum) := by
  induction ps generalizing g n with
  | nil => simp [writeCells]
  | cons p ps ih =>
      show ps.foldl _ (setCell g p.1 p.2 (f p), n + f p) = _
      rw [ih]
      simp only [writeCells, List.foldl_cons, List.map_cons, List.sum_cons, Prod.mk.injEq,
        true_and]
      omega

lemma runSimulationStep_eq (rule : Nat → Nat → Bool) (rows cols : Nat)
    (g : List (List Nat)) :
    runSimulationStep rule rows cols g
      = (writeCells (newValue rule rows cols g) g (stepPositions rows cols),
         ((stepPositions rows cols).map (newValue rule rows cols g)).sum) := by
  rw [runSimulationStep, foldl_write_pop]
  simp

/-- The grid whose cell `(i, j)` is `f i j`, for `i < r`, `j < c`. -/
def mapGrid (r c : Nat) (f : Nat → Nat → Nat) : List (List Nat) :=
  (List.range r).map (fun i => (List.range c).map (f i))

lemma rect_mapGrid (r c : Nat) (f : Nat → Nat → Nat) : rect (mapGrid r c f) r c := by
  refine ⟨by simp [mapGrid], ?_⟩
  intro row hrow
  simp only [mapGrid, List.mem_map] at hrow
  obtain ⟨i, _, rfl⟩ := hrow
  simp

lemma getCell_mapGrid (r c : Nat) (f : Nat → Nat → Nat) (i j : Nat)
    (hi : i < r) (hj : j < c) : getCell (mapGrid r c f) i j = f i j := by
  have h1 : (mapGrid r c f).getD i [] = (List.range c).map (f i) := by
    rw [getD_eq_getElem _ _ _ (by simp [mapGrid, hi])]
    simp [mapGrid, hi]
  rw [getCell, h1, getD_eq_getElem _ _ _ (by simpa using hj)]
  simp [hj]

lemma step_grid_eq (rule : Nat → Nat → Bool) (rows cols : Nat) (g : List (List Nat))
    (hg : rect g rows cols) :
    (runSimulationStep rule rows cols g).1
      = mapGrid rows cols (fun i j =>
          if rule (neighborCount g rows cols i j) (getCell g i j) then 1 else 0) := by
  rw [runSimulationStep_eq]
  refine grid_eq_of_getCell _ _ rows cols ?_ (rect_mapGrid _ _ _) ?_
  · exact rect_writeCells _ _ _ _ _ hg
      (fun p hp => (mem_stepPositions rows cols p).1 hp)
  · intro a ha b hb
    rw [getCell_writeCells _ _ _ rows cols hg
      (fun p hp => (mem_stepPositions rows cols p).1 hp),
      if_pos ((mem_stepPositions rows cols (a, b)).2 ⟨ha, hb⟩),
      getCell_mapGrid _ _ _ _ _ ha hb]
    rfl

/-- The number of live cells of a grid. -/
def countLive (g : List (List Nat)) : Nat :=
  (g.map (fun row => row.countP (fun v => v == 1))).sum

lemma sum_eq_countP (l : List Nat) (h : ∀ v ∈ l, v = 0 ∨ v = 1) :
    l.sum = l.countP (fun v => v == 1) := by
  induction l with
  | nil => rfl
  | cons a l ih =>
      have hrest := ih (fun v hv => h v (by simp [hv]))
      rcases h a (by simp) with h0 | h0 <;> subst h0 <;>
        simp [List.countP_cons, hrest, Nat.add_comm]

lemma sum_flatten_eq (L : List (List Nat)) :
    L.flatten.sum = (L.map List.sum).sum := by
  induction L with
  | nil => rfl
  | cons l L ih => simp [List.flatten_cons, List.sum_append, ih]

lemma step_pop_eq (rule : Nat → Nat → Bool) (rows cols : Nat) (g : List (List Nat))
    (hg : rect g rows cols) :
    (runSimulationStep rule rows cols g).2 = countLive (runSimulationStep rule rows cols g).1 := by
  rw [runSimulationStep_eq]
  show ((stepPositions rows cols).map (newValue rule rows cols g)).sum = _
  rw [← runSimulationStep_eq, step_grid_eq rule rows cols g hg]
  rw [stepPositions, List.map_flatMap, List.flatMap_def, sum_flatten_eq, List.map_map]
  rw [countLive, mapGrid, List.map_map]
  congr 1
  apply List.map_congr_left
  intro i _
  simp only [Function.comp, List.map_map]
  rw [sum_eq_countP _ (by
    intro v hv
    simp only [List.mem_map] at hv
    obtain ⟨j, _, rfl⟩ := hv
    simp only [Function.comp, newValue]
    split
    · exact Or.inr rfl
    · exact Or.inl rfl)]
  congr 1

/-- C3: for every rectangular rows×cols grid with entries in {0,1} and every rule
set, one step produces a rows×cols grid whose cell (i,j) is the rule set applied
to the toroidal neighbor count of (i,j) (the sum of the 8 wrapped neighbors, read
from the pre-step snapshot `g` only) and the old cell value, and the reported
population count equals the number of live cells of the new grid. -/
theorem runSimulation_step_spec (rule : Nat → Nat → Bool) (rows cols : Nat)
    (g : List (List Nat)) (h1 : 0 < rows) (h2 : 0 < cols) (hg : rect g rows cols)
    (hbin : ∀ row ∈ g, ∀ v ∈ row, v = 0 ∨ v = 1) :
    rect (runSimulationStep rule rows cols g).1 rows cols ∧
    (∀ i, i < rows → ∀ j, j < cols →
      getCell (runSimulationStep rule rows cols g).1 i j
        = if rule (neighborCount g rows cols i j) (getCell g i j) then 1 else 0) ∧
    (runSimulationStep rule rows cols g).2 = countLive (runSimulationStep rule rows cols g).1 := by
  refine ⟨?_, ?_, step_pop_eq rule rows cols g hg⟩
  · rw [step_grid_eq rule rows cols g hg]
    exact rect_mapGrid _ _ _
  · intro i hi j hj
    rw [step_grid_eq rule rows cols g hg, getCell_mapGrid _ _ _ _ _ hi hj]

theorem runSimulation_step_spec_witness :
    (0 < 2 ∧ rect [[1, 0], [0, 1]] 2 2 ∧ (∀ row ∈ [[1, 0], [0, 1]], ∀ v ∈ row, v = 0 ∨ v = 1)) ∧
    (runSimulationStep conway 2 2 [[1, 0], [0, 1]]).2
      = countLive (runSimulationStep conway 2 2 [[1, 0], [0, 1]]).1 :=
  ⟨⟨by decide, by constructor <;> decide, by decide⟩,
   (runSimulation_step_spec conway 2 2 [[1, 0], [0, 1]] (by decide) (by decide)
     ⟨by decide, by decide⟩ (by decide)).2.2⟩

instance (g : List (List Nat)) (r c : Nat) : Decidable (rect g r c) := by
  unfold rect
  infer_instance

lemma rect_generateEmptyGrid (r c : Nat) : rect (generateEmptyGrid r c) r c := by
  refine ⟨by simp [generateEmptyGrid], ?_⟩
  intro row hrow
  rw [(List.mem_replicate.1 hrow).2]
  simp

lemma foldl_foldl_flatMap {α : Type} {β γ : Type} (f : α → γ → α) (xs : List β)
    (ys : β → List γ) (a : α) :
    xs.foldl (fun acc x => (ys x).foldl f acc) a = (xs.flatMap ys).foldl f a := by
  induction xs generalizing a with
  | nil => rfl
  | cons x xs ih =>
      show xs.foldl _ ((ys x).foldl f a) = _
      rw [ih, List.flatMap_cons, List.foldl_append]

/-- The list of brush offsets `-⌊b/2⌋ … ⌊b/2⌋` traversed by each of the two
`for` loops of `handleCellClick`. -/
def brushOffsets (brushSize : Nat) : List Int :=
  (List.range (2 * (brushSize / 2) + 1)).map
    (fun (k : Nat) => (k : Int) - ((brushSize / 2 : Nat) : Int))

lemma mem_brushOffsets (b : Nat) (d : Int) :
    d ∈ brushOffsets b ↔ -((b / 2 : Nat) : Int) ≤ d ∧ d ≤ ((b / 2 : Nat) : Int) := by
  simp only [brushOffsets, List.mem_map, List.mem_range]
  constructor
  · rintro ⟨k, hk, rfl⟩
    omega
  · intro h
    exact ⟨(d + ((b / 2 : Nat) : Int)).toNat, by omega, by omega⟩

/-- `handleCellClick(i, j)` from the source: for every `x` and `y` in
`[-⌊brushSize/2⌋, ⌊brushSize/2⌋]`, the grid cell at the toroidally wrapped
coordinates is set to 0 when erasing, else 1; no other state field is touched.
(The source's `(i + x + numRows) % numRows` is non-negative whenever
`⌊brushSize/2⌋ ≤ numRows`; the claims below carry that bound, under which
`wrapIdx` models the JS expression exactly.) -/
def handleCellClick (s : GameState) (i j brushSize : Nat) (isEraser : Bool) : GameState :=
  let newGrid :=
    (brushOffsets brushSize).foldl
      (fun g1 x =>
        (brushOffsets brushSize).foldl
          (fun g2 y =>
            setCell g2 (wrapIdx i x s.numRows) (wrapIdx j y s.numCols)
              (if isEraser then 0 else 1))
          g1)
      s.grid
  { s with grid := newGrid }

/-- The wrapped cell positions touched by one `handleCellClick` call. -/
def brushPositions (rows cols i j b : Nat) : List (Nat × Nat) :=
  (brushOffsets b).flatMap
    (fun x => (brushOffsets b).map (fun y => (wrapIdx i x rows, wrapIdx j y cols)))

lemma handleCellClick_grid_eq (s : GameState) (i j b : Nat) (e : Bool) :
    (handleCellClick s i j b e).grid
      = writeCells (fun _ => if e then 0 else 1) s.grid
          (brushPositions s.numRows s.numCols i j b) := by
  rw [writeCells, brushPositions, ← foldl_foldl_flatMap]
  simp only [List.foldl_map]
  rfl

lemma mem_brushPositions (rows cols i j b : Nat) (a bb : Nat) :
    (a, bb) ∈ brushPositions rows cols i j b ↔
      ∃ dx ∈ brushOffsets b, ∃ dy ∈ brushOffsets b,
        a = wrapIdx i dx rows ∧ bb = wrapIdx j dy cols := by
  simp only [brushPositions, List.mem_flatMap, List.mem_map, Prod.mk.injEq]
  constructor
  · rintro ⟨dx, hdx, dy, hdy, h1, h2⟩
    exact ⟨dx, hdx, dy, hdy, h1.symm, h2.symm⟩
  · rintro ⟨dx, hdx, dy, hdy, h1, h2⟩
    exact ⟨dx, hdx, dy, hdy, h1.symm, h2.symm⟩

/-- C9: editCell (`handleCellClick`) sets exactly the cells at toroidally wrapped
coordinates within ⌊brushSize/2⌋ of the center in each axis to 1 (painting) or 0
(erasing); every other cell, the generation counter, the History, the running
flag and the dimensions are unchanged — in both Running and Stopped states
(`s.running` is arbitrary).  The brush offsets are exactly the integers within
⌊brushSize/2⌋ of 0. -/
theorem handleCellClick_spec (s : GameState) (i j b : Nat) (e : Bool)
    (h1 : 0 < s.numRows) (h2 : 0 < s.numCols)
    (hb1 : b / 2 ≤ s.numRows) (hb2 : b / 2 ≤ s.numCols)
    (hg : rect s.grid s.numRows s.numCols) :
    (handleCellClick s i j b e).generations = s.generations ∧
    (handleCellClick s i j b e).population = s.population ∧
    (handleCellClick s i j b e).running = s.running ∧
    (handleCellClick s i j b e).numRows = s.numRows ∧
    (handleCellClick s i j b e).numCols = s.numCols ∧
    rect (handleCellClick s i j b e).grid s.numRows s.numCols ∧
    (∀ d : Int, d ∈ brushOffsets b ↔ -((b / 2 : Nat) : Int) ≤ d ∧ d ≤ ((b / 2 : Nat) : Int)) ∧
    (∀ a, a < s.numRows → ∀ bb, bb < s.numCols →
      getCell (handleCellClick s i j b e).grid a bb
        = if (∃ dx ∈ brushOffsets b, ∃ dy ∈ brushOffsets b,
              a = wrapIdx i dx s.numRows ∧ bb = wrapIdx j dy s.numCols)
          then (if e then 0 else 1) else getCell s.grid a bb) := by
  have hps : ∀ p ∈ brushPositions s.numRows s.numCols i j b,
      p.1 < s.numRows ∧ p.2 < s.numCols := by
    intro p hp
    obtain ⟨a, bb⟩ := p
    have := (mem_brushPositions s.numRows s.numCols i j b a bb).1 hp
    obtain ⟨dx, _, dy, _, rfl, rfl⟩ := this
    exact ⟨Nat.mod_lt _ h1, Nat.mod_lt _ h2⟩
  refine ⟨rfl, rfl, rfl, rfl, rfl, ?_, mem_brushOffsets b, ?_⟩
  · rw [handleCellClick_grid_eq]
    exact rect_writeCells _ _ _ _ _ hg hps
  · intro a ha bb hbb
    rw [handleCellClick_grid_eq, getCell_writeCells _ _ _ _ _ hg hps]
    exact if_congr (mem_brushPositions s.numRows s.numCols i j b a bb) rfl rfl

theorem handleCellClick_spec_witness :
    (0 < loadedState.numRows ∧ 0 < loadedState.numCols ∧ 3 / 2 ≤ loadedState.numRows ∧
      3 / 2 ≤ loadedState.numCols ∧ rect loadedState.grid loadedState.numRows loadedState.numCols) ∧
    (handleCellClick loadedState 0 0 3 false).population = loadedState.population :=
  ⟨⟨by decide, by decide, by decide, by decide, by decide⟩,
   (handleCellClick_spec loadedState 0 0 3 false (by decide) (by decide) (by decide)
     (by decide) (by decide)).2.1⟩

/-- `handlePatternSelect` from the source, restricted to the grid it builds: a
fresh empty grid with the pattern's cells set to 1 at `(⌊rows/2⌋ + x, ⌊cols/2⌋ + y)`
for each offset pair `[x, y]`, using raw (non-wrapped) indices.  (The source also
resets the generation counter and clears the population history.) -/
def handlePatternSelect (pat : List (Nat × Nat)) (rows cols : Nat) : List (List Nat) :=
  pat.foldl (fun g p => setCell g (rows / 2 + p.1) (cols / 2 + p.2) 1)
    (generateEmptyGrid rows cols)

lemma handlePatternSelect_eq_writeCells (pat : List (Nat × Nat)) (rows cols : Nat) :
    handlePatternSelect pat rows cols
      = writeCells (fun _ => 1) (generateEmptyGrid rows cols)
          (pat.map (fun p => (rows / 2 + p.1, cols / 2 + p.2))) := by
  rw [handlePatternSelect, writeCells, List.foldl_map]

/-- C10: for grid dimensions in [10,100], every stamped index of each provided
named pattern (glider, blinker, toad) lies inside the grid, and consequently the
stamped grid is still a rectangular rows×cols grid — the raw, non-wrapped writes
of `handlePatternSelect` never go out of bounds. -/
theorem pattern_indices_in_bounds (rows cols : Nat)
    (hr1 : 10 ≤ rows) (hr2 : rows ≤ 100) (hc1 : 10 ≤ cols) (hc2 : cols ≤ 100)
    (pat : List (Nat × Nat))
    (hpat : pat = patterns_glider ∨ pat = patterns_blinker ∨ pat = patterns_toad) :
    (∀ p ∈ pat, rows / 2 + p.1 < rows ∧ cols / 2 + p.2 < cols) ∧
    rect (handlePatternSelect pat rows cols) rows cols := by
  have hin : ∀ p ∈ pat, rows / 2 + p.1 < rows ∧ cols / 2 + p.2 < cols := by
    intro p hp
    rcases hpat with h | h | h <;> subst h <;> fin_cases hp <;>
      exact ⟨by omega, by omega⟩
  refine ⟨hin, ?_⟩
  rw [handlePatternSelect_eq_writeCells]
  apply rect_writeCells _ _ _ _ _ (rect_generateEmptyGrid rows cols)
  intro q hq
  simp only [List.mem_map] at hq
  obtain ⟨p, hp, rfl⟩ := hq
  exact hin p hp

theorem pattern_indices_in_bounds_witness :
    (10 ≤ 10 ∧ 10 ≤ 100 ∧ (patterns_toad = patterns_glider ∨ patterns_toad = patterns_blinker ∨
      patterns_toad = patterns_toad)) ∧
    rect (handlePatternSelect patterns_toad 10 10) 10 10 :=
  ⟨⟨by decide, by decide, Or.inr (Or.inr rfl)⟩,
   (pattern_indices_in_bounds 10 10 (by decide) (by decide) (by decide) (by decide)
     patterns_toad (Or.inr (Or.inr rfl))).2⟩

/-- The 90°-rotated 3-cell line that the blinker becomes after one conway step
(offsets relative to the same stamp center as `patterns_blinker`). -/
def blinkerRotated : List (Nat × Nat) := [(1, 0), (1, 1), (1, 2)]

/-- Whether relative (pattern-local) coordinates `(x, y)` are one of a pattern's
offsets, as a 0/1 cell value. -/
def relInd (pat : List (Nat × Nat)) (x y : Int) : Nat :=
  if ∃ p ∈ pat, x = ((p.1 : Nat) : Int) ∧ y = ((p.2 : Nat) : Int) then 1 else 0

/-- The 8-neighbor count at relative coordinates `(x, y)` of the infinite plane
whose live cells are exactly a pattern's offsets. -/
def relCount (pat : List (Nat × Nat)) (x y : Int) : Nat :=
  (operations.map (fun q => relInd pat (x + q.1) (y + q.2))).sum

lemma wrapIdx_eq_iff (i t n : Nat) (dx : Int) (hdx : dx = -1 ∨ dx = 0 ∨ dx = 1)
    (hi : i < n) (ht2 : 2 ≤ t) (ht3 : t + 3 ≤ n) :
    wrapIdx i dx n = t ↔ (i : Int) + dx = (t : Int) := by
  rcases hdx with h | h | h <;> subst h
  · rcases Nat.eq_zero_or_pos i with h0 | h0
    · subst h0
      rw [wrapIdx, show ((0 : Nat) : Int) + -1 + (n : Int) = ((n - 1 : Nat) : Int) by omega,
        Int.toNat_natCast, Nat.mod_eq_of_lt (by omega)]
      omega
    · rw [wrapIdx, show ((i : Nat) : Int) + -1 + (n : Int) = ((i - 1 + n : Nat) : Int) by omega,
        Int.toNat_natCast, Nat.add_mod_right, Nat.mod_eq_of_lt (by omega)]
      omega
  · rw [wrapIdx, show ((i : Nat) : Int) + 0 + (n : Int) = ((i + n : Nat) : Int) by omega,
      Int.toNat_natCast, Nat.add_mod_right, Nat.mod_eq_of_lt hi]
    omega
  · rcases Nat.lt_or_ge (i + 1) n with h0 | h0
    · rw [wrapIdx, show ((i : Nat) : Int) + 1 + (n : Int) = ((i + 1 + n : Nat) : Int) by omega,
        Int.toNat_natCast, Nat.add_mod_right, Nat.mod_eq_of_lt h0]
      omega
    · rw [wrapIdx, show ((i : Nat) : Int) + 1 + (n : Int) = ((n + n : Nat) : Int) by omega,
        Int.toNat_natCast, Nat.add_mod_right, Nat.mod_self]
      omega

lemma getD_self_default {α : Type} (l : List α) (n : Nat) (d : α)
    (h : ∀ x ∈ l, x = d) : l.getD n d = d := by
  rcases Nat.lt_or_ge n l.length with h1 | h1
  · rw [getD_eq_getElem _ _ _ h1]
    exact h _ (List.getElem_mem _)
  · rw [List.getD_eq_getElem?_getD, List.getElem?_eq_none (by omega)]
    rfl

lemma getCell_generateEmptyGrid (r c i j : Nat) : getCell (generateEmptyGrid r c) i j = 0 := by
  have h1 : (generateEmptyGrid r c).getD i [] = []
      ∨ (generateEmptyGrid r c).getD i [] = List.replicate c 0 := by
    rcases Nat.lt_or_ge i r with h | h
    · right
      rw [getD_eq_getElem _ _ _ (by simp [generateEmptyGrid, h])]
      simp [generateEmptyGrid]
    · left
      rw [List.getD_eq_getElem?_getD, List.getElem?_eq_none (by simp [generateEmptyGrid, h])]
      rfl
  rw [getCell]
  rcases h1 with h | h <;> rw [h]
  · simp
  · exact getD_self_default _ _ _ (fun x hx => List.eq_of_mem_replicate hx)

lemma rect_handlePatternSelect (pat : List (Nat × Nat)) (r c : Nat)
    (hin : ∀ p ∈ pat, r / 2 + p.1 < r ∧ c / 2 + p.2 < c) :
    rect (handlePatternSelect pat r c) r c := by
  rw [handlePatternSelect_eq_writeCells]
  apply rect_writeCells _ _ _ _ _ (rect_generateEmptyGrid r c)
  intro q hq
  simp only [List.mem_map] at hq
  obtain ⟨p, hp, rfl⟩ := hq
  exact hin p hp

lemma getCell_handlePatternSelect (pat : List (Nat × Nat)) (r c : Nat)
    (hin : ∀ p ∈ pat, r / 2 + p.1 < r ∧ c / 2 + p.2 < c) (i j : Nat) :
    getCell (handlePatternSelect pat r c) i j
      = if (∃ p ∈ pat, i = r / 2 + p.1 ∧ j = c / 2 + p.2) then 1 else 0 := by
  rw [handlePatternSelect_eq_writeCells,
    getCell_writeCells _ _ _ r c (rect_generateEmptyGrid r c) (by
      intro q hq
      simp only [List.mem_map] at hq
      obtain ⟨p, hp, rfl⟩ := hq
      exact hin p hp)]
  by_cases hmem : (i, j) ∈ pat.map (fun p => (r / 2 + p.1, c / 2 + p.2))
  · rw [if_pos hmem, if_pos ?_]
    simp only [List.mem_map, Prod.mk.injEq] at hmem
    obtain ⟨p, hp, h1, h2⟩ := hmem
    exact ⟨p, hp, h1.symm, h2.symm⟩
  · rw [if_neg hmem, if_neg ?_, getCell_generateEmptyGrid]
    intro hc
    obtain ⟨p, hp, h1, h2⟩ := hc
    exact hmem (by
      simp only [List.mem_map, Prod.mk.injEq]
      exact ⟨p, hp, h1.symm, h2.symm⟩)

lemma getCell_stamp_rel (pat : List (Nat × Nat)) (r c : Nat)
    (hin : ∀ p ∈ pat, r / 2 + p.1 < r ∧ c / 2 + p.2 < c) (i j : Nat) :
    getCell (handlePatternSelect pat r c) i j
      = relInd pat ((i : Int) - ((r / 2 : Nat) : Int)) ((j : Int) - ((c / 2 : Nat) : Int)) := by
  rw [getCell_handlePatternSelect pat r c hin i j, relInd]
  refine if_congr (exists_congr fun p => and_congr_right fun hp => ?_) rfl rfl
  constructor
  · rintro ⟨rfl, rfl⟩
    exact ⟨by omega, by omega⟩
  · rintro ⟨h1, h2⟩
    exact ⟨by omega, by omega⟩

lemma getCell_stamp_wrap (pat : List (Nat × Nat)) (r c : Nat)
    (hr : 10 ≤ r) (hc : 10 ≤ c) (hpat : ∀ p ∈ pat, p.1 ≤ 2 ∧ p.2 ≤ 2)
    (i j : Nat) (hi : i < r) (hj : j < c) (dx dy : Int)
    (hdx : dx = -1 ∨ dx = 0 ∨ dx = 1) (hdy : dy = -1 ∨ dy = 0 ∨ dy = 1) :
    getCell (handlePatternSelect pat r c) (wrapIdx i dx r) (wrapIdx j dy c)
      = relInd pat ((i : Int) - ((r / 2 : Nat) : Int) + dx)
          ((j : Int) - ((c / 2 : Nat) : Int) + dy) := by
  have hin : ∀ p ∈ pat, r / 2 + p.1 < r ∧ c / 2 + p.2 < c := by
    intro p hp
    have := hpat p hp
    omega
  rw [getCell_handlePatternSelect pat r c hin _ _, relInd]
  refine if_congr (exists_congr fun p => and_congr_right fun hp => ?_) rfl rfl
  have hb := hpat p hp
  have hw1 := wrapIdx_eq_iff i (r / 2 + p.1) r dx hdx hi (by omega) (by omega)
  have hw2 := wrapIdx_eq_iff j (c / 2 + p.2) c dy hdy hj (by omega) (by omega)
  constructor
  · rintro ⟨ha, hbb⟩
    have e1 := hw1.1 ha
    have e2 := hw2.1 hbb
    exact ⟨by omega, by omega⟩
  · rintro ⟨ha, hbb⟩
    exact ⟨hw1.2 (by omega), hw2.2 (by omega)⟩

lemma neighborCount_stamp (pat : List (Nat × Nat)) (r c : Nat)
    (hr : 10 ≤ r) (hc : 10 ≤ c) (hpat : ∀ p ∈ pat, p.1 ≤ 2 ∧ p.2 ≤ 2)
    (i j : Nat) (hi : i < r) (hj : j < c) :
    neighborCount (handlePatternSelect pat r c) r c i j
      = relCount pat ((i : Int) - ((r / 2 : Nat) : Int)) ((j : Int) - ((c / 2 : Nat) : Int)) := by
  rw [neighborCount, relCount]
  congr 1
  apply List.map_congr_left
  intro q hq
  fin_cases hq <;>
    exact getCell_stamp_wrap pat r c hr hc hpat i j hi hj _ _ (by decide) (by decide)

lemma relInd_blinker (a b : Int) :
    relInd patterns_blinker a b = if (a = 0 ∨ a = 1 ∨ a = 2) ∧ b = 1 then 1 else 0 := by
  rw [relInd]
  refine if_congr ?_ rfl rfl
  simp only [patterns_blinker, List.mem_cons, List.not_mem_nil]
  constructor
  · rintro ⟨p, hp, h1, h2⟩
    rcases hp with h | h | h | h <;> first
      | (subst h; simp only [] at h1 h2; omega)
      | exact absurd h (by simp)
  · rintro ⟨h1, h2⟩
    rcases h1 with h | h | h
    · exact ⟨(0, 1), by simp, by omega, by omega⟩
    · exact ⟨(1, 1), by simp, by omega, by omega⟩
    · exact ⟨(2, 1), by simp, by omega, by omega⟩

lemma relInd_rotated (a b : Int) :
    relInd blinkerRotated a b = if a = 1 ∧ (b = 0 ∨ b = 1 ∨ b = 2) then 1 else 0 := by
  rw [relInd]
  refine if_congr ?_ rfl rfl
  simp only [blinkerRotated, List.mem_cons, List.not_mem_nil]
  constructor
  · rintro ⟨p, hp, h1, h2⟩
    rcases hp with h | h | h | h <;> first
      | (subst h; simp only [] at h1 h2; omega)
      | exact absurd h (by simp)
  · rintro ⟨h1, h2⟩
    rcases h2 with h | h | h
    · exact ⟨(1, 0), by simp, by omega, by omega⟩
    · exact ⟨(1, 1), by simp, by omega, by omega⟩
    · exact ⟨(1, 2), by simp, by omega, by omega⟩

lemma plane_blinker_vert (x y : Int) :
    (if conway (relCount patterns_blinker x y) (relInd patterns_blinker x y) then 1 else 0)
      = relInd blinkerRotated x y := by
  have hz : ∀ a b : Int, ¬((a = 0 ∨ a = 1 ∨ a = 2) ∧ b = 1) →
      (if (a = 0 ∨ a = 1 ∨ a = 2) ∧ b = 1 then (1 : Nat) else 0) = 0 := fun a b h => if_neg h
  rw [relCount]
  simp only [operations, List.map_cons, List.map_nil, List.sum_cons, List.sum_nil,
    relInd_blinker, relInd_rotated]
  by_cases hx : -1 ≤ x ∧ x ≤ 3
  · by_cases hy : 0 ≤ y ∧ y ≤ 2
    · obtain ⟨hx1, hx2⟩ := hx
      obtain ⟨hy1, hy2⟩ := hy
      interval_cases x <;> interval_cases y <;> decide
    · rw [hz (x + 0) (y + 1) (by omega), hz (x + 0) (y + -1) (by omega), hz (x + 1) (y + -1) (by omega),
        hz (x + -1) (y + 1) (by omega), hz (x + 1) (y + 1) (by omega),
        hz (x + -1) (y + -1) (by omega), hz (x + 1) (y + 0) (by omega),
        hz (x + -1) (y + 0) (by omega), hz x y (by omega),
        if_neg (show ¬(x = 1 ∧ (y = 0 ∨ y = 1 ∨ y = 2)) by omega)]
      decide
  · rw [hz (x + 0) (y + 1) (by omega), hz (x + 0) (y + -1) (by omega), hz (x + 1) (y + -1) (by omega),
      hz (x + -1) (y + 1) (by omega), hz (x + 1) (y + 1) (by omega),
      hz (x + -1) (y + -1) (by omega), hz (x + 1) (y + 0) (by omega),
      hz (x + -1) (y + 0) (by omega), hz x y (by omega),
      if_neg (show ¬(x = 1 ∧ (y = 0 ∨ y = 1 ∨ y = 2)) by omega)]
    decide

lemma plane_blinker_horiz (x y : Int) :
    (if conway (relCount blinkerRotated x y) (relInd blinkerRotated x y) then 1 else 0)
      = relInd patterns_blinker x y := by
  have hz : ∀ a b : Int, ¬(a = 1 ∧ (b = 0 ∨ b = 1 ∨ b = 2)) →
      (if a = 1 ∧ (b = 0 ∨ b = 1 ∨ b = 2) then (1 : Nat) else 0) = 0 := fun a b h => if_neg h
  rw [relCount]
  simp only [operations, List.map_cons, List.map_nil, List.sum_cons, List.sum_nil,
    relInd_blinker, relInd_rotated]
  by_cases hx : 0 ≤ x ∧ x ≤ 2
  · by_cases hy : -1 ≤ y ∧ y ≤ 3
    · obtain ⟨hx1, hx2⟩ := hx
      obtain ⟨hy1, hy2⟩ := hy
      interval_cases x <;> interval_cases y <;> decide
    · rw [hz (x + 0) (y + 1) (by omega), hz (x + 0) (y + -1) (by omega), hz (x + 1) (y + -1) (by omega),
        hz (x + -1) (y + 1) (by omega), hz (x + 1) (y + 1) (by omega),
        hz (x + -1) (y + -1) (by omega), hz (x + 1) (y + 0) (by omega),
        hz (x + -1) (y + 0) (by omega), hz x y (by omega),
        if_neg (show ¬((x = 0 ∨ x = 1 ∨ x = 2) ∧ y = 1) by omega)]
      decide
  · rw [hz (x + 0) (y + 1) (by omega), hz (x + 0) (y + -1) (by omega), hz (x + 1) (y + -1) (by omega),
      hz (x + -1) (y + 1) (by omega), hz (x + 1) (y + 1) (by omega),
      hz (x + -1) (y + -1) (by omega), hz (x + 1) (y + 0) (by omega),
      hz (x + -1) (y + 0) (by omega), hz x y (by omega),
      if_neg (show ¬((x = 0 ∨ x = 1 ∨ x = 2) ∧ y = 1) by omega)]
    decide

lemma blinker_step_one (r c : Nat) (hr1 : 10 ≤ r) (hc1 : 10 ≤ c) :
    (runSimulationStep conway r c (handlePatternSelect patterns_blinker r c)).1
      = handlePatternSelect blinkerRotated r c := by
  have hpatV : ∀ p ∈ patterns_blinker, p.1 ≤ 2 ∧ p.2 ≤ 2 := by decide
  have hpatR : ∀ p ∈ blinkerRotated, p.1 ≤ 2 ∧ p.2 ≤ 2 := by decide
  have hinV : ∀ p ∈ patterns_blinker, r / 2 + p.1 < r ∧ c / 2 + p.2 < c := by
    intro p hp
    have := hpatV p hp
    omega
  have hinR : ∀ p ∈ blinkerRotated, r / 2 + p.1 < r ∧ c / 2 + p.2 < c := by
    intro p hp
    have := hpatR p hp
    omega
  rw [step_grid_eq conway r c _ (rect_handlePatternSelect _ _ _ hinV)]
  apply grid_eq_of_getCell _ _ r c (rect_mapGrid _ _ _) (rect_handlePatternSelect _ _ _ hinR)
  intro a ha b hb
  rw [getCell_mapGrid _ _ _ _ _ ha hb,
    neighborCount_stamp patterns_blinker r c hr1 hc1 hpatV a b ha hb,
    getCell_stamp_rel patterns_blinker r c hinV a b,
    plane_blinker_vert,
    getCell_stamp_rel blinkerRotated r c hinR a b]

lemma blinker_step_two (r c : Nat) (hr1 : 10 ≤ r) (hc1 : 10 ≤ c) :
    (runSimulationStep conway r c (handlePatternSelect blinkerRotated r c)).1
      = handlePatternSelect patterns_blinker r c := by
  have hpatV : ∀ p ∈ patterns_blinker, p.1 ≤ 2 ∧ p.2 ≤ 2 := by decide
  have hpatR : ∀ p ∈ blinkerRotated, p.1 ≤ 2 ∧ p.2 ≤ 2 := by decide
  have hinV : ∀ p ∈ patterns_blinker, r / 2 + p.1 < r ∧ c / 2 + p.2 < c := by
    intro p hp
    have := hpatV p hp
    omega
  have hinR : ∀ p ∈ blinkerRotated, r / 2 + p.1 < r ∧ c / 2 + p.2 < c := by
    intro p hp
    have := hpatR p hp
    omega
  rw [step_grid_eq conway r c _ (rect_handlePatternSelect _ _ _ hinR)]
  apply grid_eq_of_getCell _ _ r c (rect_mapGrid _ _ _) (rect_handlePatternSelect _ _ _ hinV)
  intro a ha b hb
  rw [getCell_mapGrid _ _ _ _ _ ha hb,
    neighborCount_stamp blinkerRotated r c hr1 hc1 hpatR a b ha hb,
    getCell_stamp_rel blinkerRotated r c hinR a b,
    plane_blinker_horiz,
    getCell_stamp_rel patterns_blinker r c hinV a b]

/-- C6: on every grid with dimensions in [10,100], stamping the blinker
`[[0,1],[1,1],[2,1]]` centered on an empty grid and stepping once under conway
yields the 90°-rotated 3-cell line `[[1,0],[1,1],[1,2]]` (stamped at the same
center), and stepping twice returns exactly the original stamped configuration. -/
theorem blinker_period_two (r c : Nat)
    (hr1 : 10 ≤ r) (hr2 : r ≤ 100) (hc1 : 10 ≤ c) (hc2 : c ≤ 100) :
    (runSimulationStep conway r c (handlePatternSelect patterns_blinker r c)).1
        = handlePatternSelect blinkerRotated r c ∧
    (runSimulationStep conway r c
        (runSimulationStep conway r c (handlePatternSelect patterns_blinker r c)).1).1
        = handlePatternSelect patterns_blinker r c := by
  refine ⟨blinker_step_one r c hr1 hc1, ?_⟩
  rw [blinker_step_one r c hr1 hc1, blinker_step_two r c hr1 hc1]

theorem blinker_period_two_witness :
    (10 ≤ 10 ∧ (10 : Nat) ≤ 100) ∧
    (runSimulationStep conway 10 10
        (runSimulationStep conway 10 10 (handlePatternSelect patterns_blinker 10 10)).1).1
        = handlePatternSelect patterns_blinker 10 10 :=
  ⟨⟨by decide, by decide⟩,
   (blinker_period_two 10 10 (by decide) (by decide) (by decide) (by decide)).2⟩

end GameOfLife
